import Mathlib

/-!
# Verification of the LiquorLovers party authorization and invitation engine

Shallow embedding of `src/party/views.py` (`PartyViewSet`,
`PartyInvitationViewSet`).  Users are identified by their public id (a `Nat`),
parties by their `public_id`, invitations by their primary key `pk`.  The
record store is a pair of lists, kept in the store's natural order; lookups
(`get_object_or_404`) are first-match searches.

Pieces of the repository that the views call but whose files are not among the
sources (`party/models.py` with `Party.can_see_party` and
`PartyInvitation.accept`, and `party/serializers.py`) are modelled from the
spec; each such definition says so in its doc comment.
-/

abbrev UserId := Nat

/-- A `Party` row: `public_id`, the owning user, the participant set (kept as a
list in store order) and one representative plain attribute (`name`). -/
structure Party where
  publicId : Nat
  owner : UserId
  participants : List UserId
  name : String
deriving DecidableEq

/-- A `PartyInvitation` row: primary key, the `public_id` of the target party,
and the invited receiver.  Existence of the row means the invitation is
pending. -/
structure PartyInvitation where
  pk : Nat
  party : Nat
  receiver : UserId
deriving DecidableEq

/-- The record store backing both viewsets. -/
structure Store where
  parties : List Party
  invitations : List PartyInvitation
deriving DecidableEq

/-! HTTP status codes used by `views.py` (`rest_framework.status`). -/

def HTTP_200_OK : Nat := 200
def HTTP_201_CREATED : Nat := 201
def HTTP_204_NO_CONTENT : Nat := 204
def HTTP_403_FORBIDDEN : Nat := 403
def HTTP_404_NOT_FOUND : Nat := 404

/-- `get_object_or_404(Party, public_id=...)` / `self.get_object()` for the
party viewset: first party in store order with the given `public_id`. -/
def getParty (s : Store) (pid : Nat) : Option Party :=
  s.parties.find? (fun p => p.publicId == pid)

/-- `self.get_object()` for the invitation viewset (`lookup_field = 'pk'`):
first invitation in store order with the given primary key. -/
def getInvitation (s : Store) (pk : Nat) : Option PartyInvitation :=
  s.invitations.find? (fun i => i.pk == pk)

/-- Saving an updated party row back to the store: every row with the same
`public_id` is replaced by the updated row. -/
def putParty (s : Store) (p : Party) : Store :=
  { s with parties := s.parties.map (fun q => if q.publicId == p.publicId then p else q) }

/-- Modelled from the spec: `Party.can_see_party` lives in `party/models.py`,
which is not among the sources.  Spec: "`CanSee(party, actor) -> bool`: true
iff actor is the owner OR actor is in participants". -/
def Party.can_see_party (p : Party) (u : UserId) : Bool :=
  p.owner == u || p.participants.contains u

/-- Request body for party create / full update: the serializer's writable
fields (`owner_public_id` plus the plain attributes, represented by `name`). -/
structure PartyPayload where
  owner_public_id : UserId
  name : String
deriving DecidableEq

/-- Request body for a partial update (HTTP PATCH): every field optional;
`none` means the field is absent from the request data. -/
structure PartyPatchPayload where
  owner_public_id : Option UserId
  name : Option String
deriving DecidableEq

/-- Modelled from the spec: `PartySerializer` (in `party/serializers.py`, not
among the sources) writes the stored owner from the `owner_public_id` field of
the data — this is what makes the views' overriding of that field effective —
and the remaining attributes from their fields. -/
def PartySerializer.applyFull (p : Party) (d : PartyPayload) : Party :=
  { p with owner := d.owner_public_id, name := d.name }

/-- Modelled from the spec: the same serializer with `partial=True` applies
exactly the fields present in the data and keeps the stored values for absent
fields. -/
def PartySerializer.applyPatch (p : Party) (d : PartyPatchPayload) : Party :=
  { p with owner := d.owner_public_id.getD p.owner, name := d.name.getD p.name }

namespace PartyViewSet

/-- `PartyViewSet.create`: sets `request.data['owner_public_id']` to the
requesting user's public id, then creates the party from the data.  `newId` is
the store-assigned `public_id` of the new row. -/
def create (s : Store) (user : UserId) (d : PartyPayload) (newId : Nat) : Nat × Store :=
  let d2 : PartyPayload := { d with owner_public_id := user }
  (HTTP_201_CREATED,
    { s with parties := s.parties ++ [⟨newId, d2.owner_public_id, [], d2.name⟩] })

/-- `PartyViewSet.retrieve`: 403 unless `party.can_see_party(request.user)`;
otherwise the party's data. -/
def retrieve (s : Store) (user : UserId) (pid : Nat) : Nat × Option Party :=
  match getParty s pid with
  | none => (HTTP_404_NOT_FOUND, none)
  | some party =>
    if !party.can_see_party user then (HTTP_403_FORBIDDEN, none)
    else (HTTP_200_OK, some party)

/-- `PartyViewSet.list`: `filter(lambda p: p.can_see_party(request.user),
self.get_queryset())` — the store's parties, filtered, order preserved. -/
def list (s : Store) (user : UserId) : List Party :=
  s.parties.filter (fun p => p.can_see_party user)

/-- `PartyViewSet.update` (full update): 403 if the requester is not the
owner; otherwise the data merged with
`{'owner_public_id': request.user.public_id}` (the merge's right side wins) is
applied to the stored row. -/
def update (s : Store) (user : UserId) (pid : Nat) (d : PartyPayload) : Nat × Store :=
  match getParty s pid with
  | none => (HTTP_404_NOT_FOUND, s)
  | some party =>
    if party.owner ≠ user then (HTTP_403_FORBIDDEN, s)
    else
      let d2 : PartyPayload := { d with owner_public_id := user }
      (HTTP_200_OK, putParty s (PartySerializer.applyFull party d2))

/-- `PartyViewSet.partial_update`: 403 if the requester is not the owner;
otherwise `request.data` is applied with `partial=True` — unlike `create` and
`update`, nothing is merged into the data first. -/
def patch_update (s : Store) (user : UserId) (pid : Nat) (d : PartyPatchPayload) : Nat × Store :=
  match getParty s pid with
  | none => (HTTP_404_NOT_FOUND, s)
  | some party =>
    if party.owner ≠ user then (HTTP_403_FORBIDDEN, s)
    else (HTTP_200_OK, putParty s (PartySerializer.applyPatch party d))

/-- `PartyViewSet.destroy`: 403 if the requester is neither owner nor
participant; a participant (not owner) is removed from the participants and
the party is saved; the owner destroys the whole party. -/
def destroy (s : Store) (user : UserId) (pid : Nat) : Nat × Store :=
  match getParty s pid with
  | none => (HTTP_404_NOT_FOUND, s)
  | some party =>
    if party.owner ≠ user ∧ ¬ party.participants.contains user then
      (HTTP_403_FORBIDDEN, s)
    else if party.owner ≠ user then
      (HTTP_204_NO_CONTENT,
        putParty s { party with participants := party.participants.filter (fun v => v ≠ user) })
    else
      (HTTP_204_NO_CONTENT,
        { s with parties := s.parties.filter (fun q => q.publicId ≠ pid) })

end PartyViewSet

/-- Modelled from the spec: `PartyInvitation.accept` lives in
`party/models.py`, not among the sources.  Spec: "add receiver to the party's
participant set (idempotent — adding an already-present participant is a no-op
within the same transaction) and delete the invitation record". -/
def PartyInvitation.acceptRecord (s : Store) (inv : PartyInvitation) : Store :=
  let s1 :=
    match getParty s inv.party with
    | none => s
    | some party =>
      if party.participants.contains inv.receiver then s
      else putParty s { party with participants := party.participants ++ [inv.receiver] }
  { s1 with invitations := s1.invitations.filter (fun j => j.pk ≠ inv.pk) }

/-- Request body for invitation creation: the receiver, and possibly a
`party_public_id` field supplied by the caller (overridden by the view). -/
structure InvitationPayload where
  receiver_public_id : UserId
  party_public_id : Option Nat
deriving DecidableEq

namespace PartyInvitationViewSet

/-- `PartyInvitationViewSet.create`: resolves the party from the request path
(`get_party`, 404 if absent); 403 unless the requester is that party's owner;
otherwise creates the invitation from the data merged with
`{'party_public_id': party.public_id}` (the merge's right side wins).  `newPk`
is the store-assigned primary key. -/
def create (s : Store) (user : UserId) (partyRef : Nat) (d : InvitationPayload)
    (newPk : Nat) : Nat × Store :=
  match getParty s partyRef with
  | none => (HTTP_404_NOT_FOUND, s)
  | some party =>
    if user ≠ party.owner then (HTTP_403_FORBIDDEN, s)
    else
      let d2 : InvitationPayload := { d with party_public_id := some party.publicId }
      (HTTP_201_CREATED,
        { s with invitations :=
            s.invitations ++ [⟨newPk, d2.party_public_id.getD party.publicId,
                               d2.receiver_public_id⟩] })

/-- `PartyInvitationViewSet.accept`: 404 if the invitation id does not
resolve; 204 No Content (and no other effect) if the requester is not the
receiver; otherwise `invitation.accept()` and 201 Created. -/
def accept (s : Store) (user : UserId) (pk : Nat) : Nat × Store :=
  match getInvitation s pk with
  | none => (HTTP_404_NOT_FOUND, s)
  | some inv =>
    if user ≠ inv.receiver then (HTTP_204_NO_CONTENT, s)
    else (HTTP_201_CREATED, inv.acceptRecord s)

/-- `PartyInvitationViewSet.list`: resolves the party from the request path;
403 unless the requester is its owner; otherwise the invitations whose party
is that party, in store order. -/
def list (s : Store) (user : UserId) (partyRef : Nat) : Nat × List PartyInvitation :=
  match getParty s partyRef with
  | none => (HTTP_404_NOT_FOUND, [])
  | some party =>
    if user ≠ party.owner then (HTTP_403_FORBIDDEN, [])
    else (HTTP_200_OK, s.invitations.filter (fun i => i.party == party.publicId))

/-- `PartyInvitationViewSet.list_mine`: the invitations whose receiver is the
requesting user; no ownership check. -/
def list_mine (s : Store) (user : UserId) : List PartyInvitation :=
  s.invitations.filter (fun i => i.receiver == user)

/-- `PartyInvitationViewSet.destroy`: resolves the invitation from its id and
the party from the request path (`party_public_id` URL kwarg — not the
invitation's own party); 403 unless the requester is that referenced party's
owner or the invitation's receiver; otherwise deletes the invitation. -/
def destroy (s : Store) (user : UserId) (pk : Nat) (partyRef : Nat) : Nat × Store :=
  match getInvitation s pk with
  | none => (HTTP_404_NOT_FOUND, s)
  | some inv =>
    match getParty s partyRef with
    | none => (HTTP_404_NOT_FOUND, s)
    | some party =>
      if user ≠ party.owner ∧ user ≠ inv.receiver then (HTTP_403_FORBIDDEN, s)
      else
        (HTTP_204_NO_CONTENT,
          { s with invitations := s.invitations.filter (fun j => j.pk ≠ pk) })

end PartyInvitationViewSet

/-! ## Helper lemmas about the store primitives -/

theorem getParty_publicId {s : Store} {pid : Nat} {p : Party}
    (h : getParty s pid = some p) : p.publicId = pid := by
  unfold getParty at h
  simpa using List.find?_some h

theorem getInvitation_pk {s : Store} {pk : Nat} {i : PartyInvitation}
    (h : getInvitation s pk = some i) : i.pk = pk := by
  unfold getInvitation at h
  simpa using List.find?_some h

theorem find_replace_eq (pid : Nat) (p : Party) (hid : p.publicId = pid) :
    ∀ l : List Party, (l.find? (fun r => r.publicId == pid)).isSome →
      (l.map (fun r => if r.publicId == p.publicId then p else r)).find?
        (fun r => r.publicId == pid) = some p := by
  intro l
  induction l with
  | nil => intro h; simp [List.find?] at h
  | cons a t ih =>
    intro h
    by_cases ha : a.publicId = pid
    · have h1 : (if a.publicId == p.publicId then p else a) = p := by
        simp [ha, hid]
      rw [List.map_cons, h1]
      exact List.find?_cons_of_pos _ (by simp [hid])
    · have h1 : (if a.publicId == p.publicId then p else a) = a := by
        simp [ha, hid]
      rw [List.map_cons, h1, List.find?_cons_of_neg _ (by simp [ha])]
      rw [List.find?_cons_of_neg _ (by simp [ha])] at h
      exact ih h

theorem getParty_putParty {s : Store} {pid : Nat} {q : Party} (p : Party)
    (hq : getParty s pid = some q) (hid : p.publicId = pid) :
    getParty (putParty s p) pid = some p := by
  unfold getParty putParty
  exact find_replace_eq pid p hid s.parties (by unfold getParty at hq; simp [hq])

theorem find_filter_none (pk : Nat) (l : List PartyInvitation) :
    (l.filter (fun j => j.pk ≠ pk)).find? (fun j => j.pk == pk) = none := by
  rw [List.find?_eq_none]
  intro x hx
  rw [List.mem_filter] at hx
  simpa using hx.2

theorem find_filter_none_party (pid : Nat) (l : List Party) :
    (l.filter (fun q => q.publicId ≠ pid)).find? (fun q => q.publicId == pid) = none := by
  rw [List.find?_eq_none]
  intro x hx
  rw [List.mem_filter] at hx
  simpa using hx.2

/-! ## Claims -/

/-- C5: single-party retrieval returns the party's data iff `CanSee` holds —
the actor is the owner or a participant — and otherwise signals forbidden; the
list operation returns exactly the parties of the store for which `CanSee`
holds for the requesting actor, in the store's natural order (a sublist of the
store). -/
theorem C5_can_see_gates_retrieve_and_list (s : Store) (user pid : Nat) (p : Party)
    (h : getParty s pid = some p) :
    (p.can_see_party user = true →
      PartyViewSet.retrieve s user pid = (HTTP_200_OK, some p)) ∧
    (p.can_see_party user = false →
      PartyViewSet.retrieve s user pid = (HTTP_403_FORBIDDEN, none)) ∧
    (p.can_see_party user = true ↔ (p.owner = user ∨ user ∈ p.participants)) ∧
    (PartyViewSet.list s user).Sublist s.parties ∧
    (∀ q : Party, q ∈ PartyViewSet.list s user ↔
      (q ∈ s.parties ∧ (q.owner = user ∨ user ∈ q.participants))) := by
  refine ⟨?_, ?_, ?_, ?_, ?_⟩
  · intro hc; simp [PartyViewSet.retrieve, h, hc]
  · intro hc; simp [PartyViewSet.retrieve, h, hc]
  · simp [Party.can_see_party]
  · exact List.filter_sublist _
  · intro q
    simp [PartyViewSet.list, List.mem_filter, Party.can_see_party, and_assoc]

/-- C5 witness: a participant (user 2) retrieves party 1, which it can see. -/
theorem C5_witness :
    PartyViewSet.retrieve ⟨[⟨1, 1, [2], "p"⟩], []⟩ 2 1 = (HTTP_200_OK, some ⟨1, 1, [2], "p"⟩) :=
  (C5_can_see_gates_retrieve_and_list ⟨[⟨1, 1, [2], "p"⟩], []⟩ 2 1 ⟨1, 1, [2], "p"⟩
    (by decide)).1 (by decide)

/-- C8: listing a party's pending invitations succeeds only for the party's
owner and is forbidden for every other actor; `list_mine` returns exactly the
invitations whose receiver is the requesting actor, with no ownership
check. -/
theorem C8_invitation_lists (s : Store) (user partyRef : Nat) (p : Party)
    (h : getParty s partyRef = some p) :
    (user = p.owner →
      PartyInvitationViewSet.list s user partyRef =
        (HTTP_200_OK, s.invitations.filter (fun i => i.party == p.publicId))) ∧
    (user ≠ p.owner →
      PartyInvitationViewSet.list s user partyRef = (HTTP_403_FORBIDDEN, [])) ∧
    (∀ i : PartyInvitation, i ∈ PartyInvitationViewSet.list_mine s user ↔
      (i ∈ s.invitations ∧ i.receiver = user)) := by
  refine ⟨?_, ?_, ?_⟩
  · intro hu; simp [PartyInvitationViewSet.list, h, hu]
  · intro hu; simp [PartyInvitationViewSet.list, h, hu]
  · intro i; simp [PartyInvitationViewSet.list_mine, List.mem_filter]

/-- C8 witness: the owner (user 1) lists party 1's invitations and gets the
pending invitation; the spec's scenario's non-owner case is the second
conjunct of the claim theorem. -/
theorem C8_witness :
    PartyInvitationViewSet.list ⟨[⟨1, 1, [], "p"⟩], [⟨7, 1, 2⟩]⟩ 1 1 =
      (HTTP_200_OK, [⟨7, 1, 2⟩]) :=
  (C8_invitation_lists ⟨[⟨1, 1, [], "p"⟩], [⟨7, 1, 2⟩]⟩ 1 1 ⟨1, 1, [], "p"⟩
    (by decide)).1 rfl

/-- C7: creating an invitation on a party succeeds — a new pending invitation
for the specified receiver is persisted — iff the actor equals the party's
owner, and signals forbidden with no invitation created for every other
actor. -/
theorem C7_invitation_create_owner_only (s : Store) (user partyRef newPk : Nat)
    (d : InvitationPayload) (p : Party) (h : getParty s partyRef = some p) :
    (user = p.owner →
      PartyInvitationViewSet.create s user partyRef d newPk =
        (HTTP_201_CREATED,
          { s with invitations :=
              s.invitations ++ [⟨newPk, p.publicId, d.receiver_public_id⟩] })) ∧
    (user ≠ p.owner →
      PartyInvitationViewSet.create s user partyRef d newPk = (HTTP_403_FORBIDDEN, s)) := by
  constructor
  · intro hu; simp [PartyInvitationViewSet.create, h, hu]
  · intro hu; simp [PartyInvitationViewSet.create, h, hu]

/-- C7 witness: the owner (user 1) invites user 2 to party 1 and the pending
invitation is persisted. -/
theorem C7_witness :
    PartyInvitationViewSet.create ⟨[⟨1, 1, [], "p"⟩], []⟩ 1 1 ⟨2, none⟩ 7 =
      (HTTP_201_CREATED, ⟨[⟨1, 1, [], "p"⟩], [⟨7, 1, 2⟩]⟩) :=
  (C7_invitation_create_owner_only ⟨[⟨1, 1, [], "p"⟩], []⟩ 1 1 7 ⟨2, none⟩ ⟨1, 1, [], "p"⟩
    (by decide)).1 rfl

/-- C10: every successfully created invitation targets the party identified in
the request path: any `party_public_id` in the payload is overridden by the
path party's id before validation, the owner check is against that same path
party, and the stored invitation's party equals the party the requester was
verified to own. -/
theorem C10_created_invitation_targets_path_party (s : Store)
    (user partyRef newPk : Nat) (d : InvitationPayload) (p : Party)
    (h : getParty s partyRef = some p)
    (hs : (PartyInvitationViewSet.create s user partyRef d newPk).1 = HTTP_201_CREATED) :
    user = p.owner ∧
    (PartyInvitationViewSet.create s user partyRef d newPk).2.invitations =
      s.invitations ++ [⟨newPk, p.publicId, d.receiver_public_id⟩] := by
  by_cases hu : user = p.owner
  · refine ⟨hu, ?_⟩
    simp [PartyInvitationViewSet.create, h, hu]
  · exfalso
    simp [PartyInvitationViewSet.create, h, hu, HTTP_403_FORBIDDEN, HTTP_201_CREATED] at hs

/-- Successful invitation deletion: when the actor owns the referenced party
or is the invitation's receiver, `destroy` answers 204 and filters the
invitation's primary key out of the store. -/
theorem destroy_ok (s : Store) (user pk partyRef : Nat)
    (inv : PartyInvitation) (p : Party)
    (hi : getInvitation s pk = some inv) (hp : getParty s partyRef = some p)
    (hauth : user = p.owner ∨ user = inv.receiver) :
    PartyInvitationViewSet.destroy s user pk partyRef =
      (HTTP_204_NO_CONTENT,
        { s with invitations := s.invitations.filter (fun j => j.pk ≠ pk) }) := by
  rcases hauth with hu | hu <;> simp [PartyInvitationViewSet.destroy, hi, hp, hu]

/-- C4: party delete has exactly three outcomes: the owner deletes the whole
party; a participant who is not the owner is removed from the participants
only, the party persisting with one fewer participant (under the
participant-uniqueness invariant) and its owner unchanged; any other actor is
forbidden and nothing changes. -/
theorem C4_party_destroy_three_outcomes (s : Store) (user pid : Nat) (p : Party)
    (h : getParty s pid = some p) :
    (p.owner = user →
      PartyViewSet.destroy s user pid =
        (HTTP_204_NO_CONTENT,
          { s with parties := s.parties.filter (fun q => q.publicId ≠ pid) }) ∧
      getParty (PartyViewSet.destroy s user pid).2 pid = none) ∧
    (p.owner ≠ user → user ∈ p.participants →
      PartyViewSet.destroy s user pid =
        (HTTP_204_NO_CONTENT,
          putParty s { p with participants := p.participants.filter (fun v => v ≠ user) }) ∧
      getParty (PartyViewSet.destroy s user pid).2 pid =
        some { p with participants := p.participants.filter (fun v => v ≠ user) } ∧
      (p.participants.Nodup →
        (p.participants.filter (fun v => v ≠ user)).length + 1 = p.participants.length)) ∧
    (p.owner ≠ user → user ∉ p.participants →
      PartyViewSet.destroy s user pid = (HTTP_403_FORBIDDEN, s)) := by
  have hpid : p.publicId = pid := getParty_publicId h
  refine ⟨?_, ?_, ?_⟩
  · intro hu
    have hdef : PartyViewSet.destroy s user pid =
        (HTTP_204_NO_CONTENT,
          { s with parties := s.parties.filter (fun q => q.publicId ≠ pid) }) := by
      simp [PartyViewSet.destroy, h, hu]
    refine ⟨hdef, ?_⟩
    rw [hdef]
    exact find_filter_none_party pid s.parties
  · intro hu hmem
    have hdef : PartyViewSet.destroy s user pid =
        (HTTP_204_NO_CONTENT,
          putParty s { p with participants := p.participants.filter (fun v => v ≠ user) }) := by
      simp [PartyViewSet.destroy, h, hu, hmem, Ne.symm hu]
    refine ⟨hdef, ?_, ?_⟩
    · rw [hdef]
      exact getParty_putParty _ h hpid
    · intro hnd
      have hf : p.participants.filter (fun v => v ≠ user) = p.participants.erase user := by
        rw [hnd.erase_eq_filter user]
        apply List.filter_congr
        intro x hx
        by_cases hxx : x = user <;> simp [hxx]
      rw [hf]
      exact List.length_erase_add_one hmem
  · intro hu hmem
    simp [PartyViewSet.destroy, h, hu, hmem, Ne.symm hu]

/-- C4 witness: participant 2 removes itself from party 1; the party persists
with participant 3 only and owner 1 unchanged, one participant fewer. -/
theorem C4_witness :
    PartyViewSet.destroy ⟨[⟨1, 1, [2, 3], "p"⟩], []⟩ 2 1 =
      (HTTP_204_NO_CONTENT, ⟨[⟨1, 1, [3], "p"⟩], []⟩) ∧
    (([2, 3] : List Nat).filter (fun v => v ≠ 2)).length + 1 = ([2, 3] : List Nat).length := by
  have h := (C4_party_destroy_three_outcomes ⟨[⟨1, 1, [2, 3], "p"⟩], []⟩ 2 1
    ⟨1, 1, [2, 3], "p"⟩ (by decide)).2.1 (by decide) (by decide)
  exact ⟨h.1, h.2.2 (by decide)⟩

/-- C6: deleting a pending invitation through its own party's endpoint
succeeds exactly for that party's owner or the invitation's receiver and is
forbidden for every other actor; success removes the invitation record,
leaves the participants untouched, and a subsequent accept of the same
identifier returns not found. -/
theorem C6_invitation_destroy (s : Store) (user pk : Nat)
    (inv : PartyInvitation) (p : Party)
    (hi : getInvitation s pk = some inv) (hp : getParty s inv.party = some p) :
    ((user = p.owner ∨ user = inv.receiver) →
      PartyInvitationViewSet.destroy s user pk inv.party =
        (HTTP_204_NO_CONTENT,
          { s with invitations := s.invitations.filter (fun j => j.pk ≠ pk) }) ∧
      getInvitation (PartyInvitationViewSet.destroy s user pk inv.party).2 pk = none ∧
      (PartyInvitationViewSet.destroy s user pk inv.party).2.parties = s.parties ∧
      (∀ u2 : UserId,
        PartyInvitationViewSet.accept
            (PartyInvitationViewSet.destroy s user pk inv.party).2 u2 pk =
          (HTTP_404_NOT_FOUND, (PartyInvitationViewSet.destroy s user pk inv.party).2))) ∧
    ((user ≠ p.owner ∧ user ≠ inv.receiver) →
      PartyInvitationViewSet.destroy s user pk inv.party = (HTTP_403_FORBIDDEN, s)) := by
  constructor
  · intro hauth
    have hdef := destroy_ok s user pk inv.party inv p hi hp hauth
    have hnone : getInvitation (PartyInvitationViewSet.destroy s user pk inv.party).2 pk = none := by
      rw [hdef]
      exact find_filter_none pk s.invitations
    refine ⟨hdef, hnone, by rw [hdef], ?_⟩
    intro u2
    simp [PartyInvitationViewSet.accept, hnone]
  · intro hne
    simp [PartyInvitationViewSet.destroy, hi, hp, hne.1, hne.2]

/-- C6 witness: receiver 2 deletes invitation 7 of party 1; the record is
gone, the party untouched, and accepting id 7 afterwards is not found. -/
theorem C6_witness :
    PartyInvitationViewSet.destroy ⟨[⟨1, 1, [], "p"⟩], [⟨7, 1, 2⟩]⟩ 2 7 1 =
      (HTTP_204_NO_CONTENT, ⟨[⟨1, 1, [], "p"⟩], []⟩) ∧
    PartyInvitationViewSet.accept ⟨[⟨1, 1, [], "p"⟩], []⟩ 2 7 =
      (HTTP_404_NOT_FOUND, ⟨[⟨1, 1, [], "p"⟩], []⟩) := by
  have h := (C6_invitation_destroy ⟨[⟨1, 1, [], "p"⟩], [⟨7, 1, 2⟩]⟩ 2 7 ⟨7, 1, 2⟩
    ⟨1, 1, [], "p"⟩ (by decide) (by decide)).1 (Or.inr rfl)
  exact ⟨h.1, h.2.2.2 2⟩

/-- Accepting an invitation always removes every record with its primary key,
whatever the party lookup and the participant check do. -/
theorem acceptRecord_removes (s : Store) (inv : PartyInvitation) :
    getInvitation (inv.acceptRecord s) inv.pk = none := by
  unfold PartyInvitation.acceptRecord
  cases hgp : getParty s inv.party with
  | none => exact find_filter_none inv.pk s.invitations
  | some party =>
    by_cases hc : party.participants.contains inv.receiver
    · simp only [hc]
      exact find_filter_none inv.pk s.invitations
    · simp only [hc]
      exact find_filter_none inv.pk s.invitations

/-- C3: accepting a pending invitation as its receiver adds the receiver to
the target party's participants and removes the invitation record — no
accepted row remains — and a second accept of the same identifier returns not
found. -/
theorem C3_accept_consumes_invitation (s : Store) (pk : Nat)
    (inv : PartyInvitation) (p : Party)
    (hi : getInvitation s pk = some inv) (hp : getParty s inv.party = some p)
    (hnew : inv.receiver ∉ p.participants) :
    PartyInvitationViewSet.accept s inv.receiver pk =
      (HTTP_201_CREATED, inv.acceptRecord s) ∧
    getParty (inv.acceptRecord s) inv.party =
      some { p with participants := p.participants ++ [inv.receiver] } ∧
    getInvitation (inv.acceptRecord s) pk = none ∧
    PartyInvitationViewSet.accept (inv.acceptRecord s) inv.receiver pk =
      (HTTP_404_NOT_FOUND, inv.acceptRecord s) := by
  have hpk : inv.pk = pk := getInvitation_pk hi
  have hpid : p.publicId = inv.party := getParty_publicId hp
  have hcontains : p.participants.contains inv.receiver = false := by
    simpa using hnew
  have h3 : getInvitation (inv.acceptRecord s) pk = none := by
    rw [← hpk]
    exact acceptRecord_removes s inv
  refine ⟨?_, ?_, h3, ?_⟩
  · simp [PartyInvitationViewSet.accept, hi]
  · unfold PartyInvitation.acceptRecord
    rw [hp]
    simp only [hcontains, Bool.false_eq_true, if_false]
    exact getParty_putParty _ hp hpid
  · simp [PartyInvitationViewSet.accept, h3]

/-- C3 witness: user 2 accepts invitation 7 to party 1, joining the
participants and consuming the record; a second accept is not found. -/
theorem C3_witness :
    PartyInvitationViewSet.accept ⟨[⟨1, 1, [], "p"⟩], [⟨7, 1, 2⟩]⟩ 2 7 =
      (HTTP_201_CREATED, ⟨[⟨1, 1, [2], "p"⟩], []⟩) ∧
    getParty ⟨[⟨1, 1, [2], "p"⟩], []⟩ 1 = some ⟨1, 1, [2], "p"⟩ ∧
    getInvitation ⟨[⟨1, 1, [2], "p"⟩], []⟩ 7 = none ∧
    PartyInvitationViewSet.accept ⟨[⟨1, 1, [2], "p"⟩], []⟩ 2 7 =
      (HTTP_404_NOT_FOUND, ⟨[⟨1, 1, [2], "p"⟩], []⟩) := by
  have h := C3_accept_consumes_invitation ⟨[⟨1, 1, [], "p"⟩], [⟨7, 1, 2⟩]⟩ 7 ⟨7, 1, 2⟩
    ⟨1, 1, [], "p"⟩ (by decide) (by decide) (by decide)
  exact ⟨h.1, h.2.1, h.2.2.1, h.2.2.2⟩

/-- C2 counterexample: invitation 7 of party 1 is addressed to user 2; the
wrong actor 3 gets 204 from accept while the receiver's successful accept
answers 201, so the wrong-actor outcome is distinguishable from a successful
accept's; and a wrong actor probing the nonexistent id 99 gets 404, so the
204 also reveals that invitation 7 exists. -/
theorem C2_counterexample :
    (PartyInvitationViewSet.accept ⟨[⟨1, 1, [], "p"⟩], [⟨7, 1, 2⟩]⟩ 3 7).1 =
      HTTP_204_NO_CONTENT ∧
    (PartyInvitationViewSet.accept ⟨[⟨1, 1, [], "p"⟩], [⟨7, 1, 2⟩]⟩ 2 7).1 =
      HTTP_201_CREATED ∧
    HTTP_204_NO_CONTENT ≠ HTTP_201_CREATED ∧
    (PartyInvitationViewSet.accept ⟨[⟨1, 1, [], "p"⟩], [⟨7, 1, 2⟩]⟩ 3 99).1 =
      HTTP_404_NOT_FOUND :=
  ⟨rfl, rfl, by decide, rfl⟩

/-- C2 amended: accepting someone else's pending invitation is a non-error
no-op: 204 No Content with the store unchanged, a response independent of
whom the invitation is addressed to, and any number of repeated wrong-actor
accepts leave all state unchanged; the status does, however, differ from the
201 of a successful accept. -/
theorem C2_wrong_actor_accept_noop (s : Store) (user pk : Nat)
    (inv : PartyInvitation) (hi : getInvitation s pk = some inv)
    (hne : user ≠ inv.receiver) :
    PartyInvitationViewSet.accept s user pk = (HTTP_204_NO_CONTENT, s) ∧
    (∀ n : Nat, (fun t => (PartyInvitationViewSet.accept t user pk).2)^[n] s = s) ∧
    HTTP_204_NO_CONTENT ≠ HTTP_201_CREATED := by
  have h1 : PartyInvitationViewSet.accept s user pk = (HTTP_204_NO_CONTENT, s) := by
    simp [PartyInvitationViewSet.accept, hi, hne]
  refine ⟨h1, ?_, by decide⟩
  intro n
  apply Function.iterate_fixed
  simp [h1]

/-- C2 witness: actor 3 is not the receiver of invitation 7 and its accept is
a 204 no-op leaving the store as it was. -/
theorem C2_witness :
    PartyInvitationViewSet.accept ⟨[⟨1, 1, [], "p"⟩], [⟨7, 1, 2⟩]⟩ 3 7 =
      (HTTP_204_NO_CONTENT, ⟨[⟨1, 1, [], "p"⟩], [⟨7, 1, 2⟩]⟩) :=
  (C2_wrong_actor_accept_noop ⟨[⟨1, 1, [], "p"⟩], [⟨7, 1, 2⟩]⟩ 3 7 ⟨7, 1, 2⟩
    (by decide) (by decide)).1

/-- C1 counterexample: party 1 is owned by user 1; user 1 issues a successful
partial update whose payload carries owner field 2; the stored owner becomes
2, not the pre-update owner 1 — the payload's owner field is not discarded on
partial update. -/
theorem C1_counterexample :
    (PartyViewSet.patch_update ⟨[⟨1, 1, [], "p"⟩], []⟩ 1 1 ⟨some 2, none⟩).1 =
      HTTP_200_OK ∧
    getParty (PartyViewSet.patch_update ⟨[⟨1, 1, [], "p"⟩], []⟩ 1 1 ⟨some 2, none⟩).2 1 =
      some ⟨1, 2, [], "p"⟩ ∧
    (2 : Nat) ≠ 1 :=
  ⟨rfl, rfl, by decide⟩

/-- C1 amended: on create and on full update the owner field supplied in the
payload is discarded and replaced with the requesting actor's identity, so a
successful full update leaves the stored owner equal to the pre-update owner
(the requester); a partial update applies the payload as-is, so it preserves
the owner exactly when the payload carries no owner field — a partial update
whose payload does carry one stores that owner (reachable only by the current
owner, who alone passes the ownership check). -/
theorem C1_owner_forced_on_create_and_full_update (s : Store) (user pid newId : Nat)
    (d : PartyPayload) (dp : PartyPatchPayload) (p : Party)
    (h : getParty s pid = some p) :
    (PartyViewSet.create s user d newId).2.parties =
      s.parties ++ [⟨newId, user, [], d.name⟩] ∧
    ((PartyViewSet.update s user pid d).1 = HTTP_200_OK →
      getParty (PartyViewSet.update s user pid d).2 pid =
        some { p with name := d.name }) ∧
    (dp.owner_public_id = none →
      (PartyViewSet.patch_update s user pid dp).1 = HTTP_200_OK →
      getParty (PartyViewSet.patch_update s user pid dp).2 pid =
        some { p with name := dp.name.getD p.name }) := by
  have hpid : p.publicId = pid := getParty_publicId h
  refine ⟨rfl, ?_, ?_⟩
  · intro hs
    by_cases hu : p.owner = user
    · subst hu
      have hdef : PartyViewSet.update s p.owner pid d =
          (HTTP_200_OK, putParty s { p with name := d.name }) := by
        simp [PartyViewSet.update, h, PartySerializer.applyFull]
      rw [hdef]
      exact getParty_putParty _ h hpid
    · exfalso
      simp [PartyViewSet.update, h, hu, HTTP_403_FORBIDDEN, HTTP_200_OK] at hs
  · intro hnone hs
    by_cases hu : p.owner = user
    · subst hu
      have hdef : PartyViewSet.patch_update s p.owner pid dp =
          (HTTP_200_OK, putParty s { p with name := dp.name.getD p.name }) := by
        simp [PartyViewSet.patch_update, h, PartySerializer.applyPatch, hnone]
      rw [hdef]
      exact getParty_putParty _ h hpid
    · exfalso
      simp [PartyViewSet.patch_update, h, hu, HTTP_403_FORBIDDEN, HTTP_200_OK] at hs

/-- C1 witness: the full-update payload claims owner 9 but the successful
update by owner 1 keeps the stored owner at 1. -/
theorem C1_witness :
    getParty (PartyViewSet.update ⟨[⟨1, 1, [], "p"⟩], []⟩ 1 1 ⟨9, "q"⟩).2 1 =
      some ⟨1, 1, [], "q"⟩ :=
  (C1_owner_forced_on_create_and_full_update ⟨[⟨1, 1, [], "p"⟩], []⟩ 1 1 2 ⟨9, "q"⟩
    ⟨none, some "r"⟩ ⟨1, 1, [], "p"⟩ (by decide)).2.1 rfl

/-- C9: invitation deletion authorizes against the party referenced in the
request, not against the invitation's own party: whenever the actor owns the
referenced party or is the invitation's receiver the deletion succeeds and
removes the invitation, with no check that the referenced party equals the
invitation's party (the statement imposes no relation between them). -/
theorem C9_destroy_uses_request_party (s : Store) (user pk partyRef : Nat)
    (inv : PartyInvitation) (p : Party)
    (hi : getInvitation s pk = some inv) (hp : getParty s partyRef = some p)
    (hauth : user = p.owner ∨ user = inv.receiver) :
    PartyInvitationViewSet.destroy s user pk partyRef =
      (HTTP_204_NO_CONTENT,
        { s with invitations := s.invitations.filter (fun j => j.pk ≠ pk) }) ∧
    getInvitation (PartyInvitationViewSet.destroy s user pk partyRef).2 pk = none := by
  have hdef := destroy_ok s user pk partyRef inv p hi hp hauth
  refine ⟨hdef, ?_⟩
  rw [hdef]
  exact find_filter_none pk s.invitations

/-- C9 witness: user 1 owns party 1 only, is neither owner of party 2 (owner
9) nor receiver of its invitation 7 (receiver 5), yet deletes invitation 7 by
referencing party 1 in the request. -/
theorem C9_witness :
    (1 : Nat) ≠ 2 ∧ (1 : Nat) ≠ 9 ∧ (1 : Nat) ≠ 5 ∧
    PartyInvitationViewSet.destroy
        ⟨[⟨1, 1, [], "p"⟩, ⟨2, 9, [], "q"⟩], [⟨7, 2, 5⟩]⟩ 1 7 1 =
      (HTTP_204_NO_CONTENT, ⟨[⟨1, 1, [], "p"⟩, ⟨2, 9, [], "q"⟩], []⟩) := by
  refine ⟨by decide, by decide, by decide, ?_⟩
  exact (C9_destroy_uses_request_party ⟨[⟨1, 1, [], "p"⟩, ⟨2, 9, [], "q"⟩], [⟨7, 2, 5⟩]⟩
    1 7 1 ⟨7, 2, 5⟩ ⟨1, 1, [], "p"⟩ (by decide) (by decide) (Or.inl rfl)).1

/-- C10 witness: the payload asks for party 99 but the invitation is created
for path party 1, the party the requester owns. -/
theorem C10_witness :
    (1 : Nat) = (1 : Nat) ∧
    (PartyInvitationViewSet.create ⟨[⟨1, 1, [], "p"⟩], []⟩ 1 1 ⟨2, some 99⟩ 7).2.invitations =
      [⟨7, 1, 2⟩] :=
  C10_created_invitation_targets_path_party ⟨[⟨1, 1, [], "p"⟩], []⟩ 1 1 7 ⟨2, some 99⟩
    ⟨1, 1, [], "p"⟩ (by decide) (by decide)
